import Mathlib

/-!
Verification of `resources/featureLoader.py` from ArduPilot/ardupilot_vscode_devenv.

The script is a build-time feature-flag exporter: given one command-line
argument (a path to a Python configuration script), it dynamically loads the
script, reads its module-level `BUILD_OPTIONS` sequence, and prints each
record's `__dict__` as JSON, wrapped in `[` ... `]`, with `,\n` between
records — the separator is decided by comparing each record with
`BUILD_OPTIONS[-1]` using Python `==`.

The embedding below models Python values reachable from a record's
`__dict__` (`PyValue`), Python's `json.dumps` with its default settings
(`dumpsValue`), and the `__main__` block of the script (`featureLoader`).
Dynamic loading is environment-dependent, so the loaded module is an explicit
parameter (`ModuleLoad`): it either failed to load, loaded without a
`BUILD_OPTIONS` attribute, or loaded with a list of records.
-/

/-- Separator-joined concatenation: the elements in order with `sep` between
each consecutive pair and nothing after the last.  (Spec-side form used to
state order-preservation and separator exactness.) -/
def joinSep (sep : String) : List String → String
  | [] => ""
  | [s] => s
  | s :: rest => s ++ sep ++ joinSep sep rest

mutual
/-- Python values that can appear as a field of a build-option record.
`obj` stands for any value `json.dumps` cannot serialize (a set, a module,
an arbitrary object ...): serialization raises `TypeError` on it.
Lists and dicts are mutual inductives (rather than nested `List`) so that
structural recursion and induction are direct. -/
inductive PyValue where
  | null : PyValue
  | bool (b : Bool) : PyValue
  | int (n : Int) : PyValue
  | str (s : String) : PyValue
  | list (items : PyList) : PyValue
  | dict (items : PyDict) : PyValue
  | obj : PyValue
deriving DecidableEq

/-- A Python list of `PyValue`s. -/
inductive PyList where
  | nil : PyList
  | cons (head : PyValue) (tail : PyList) : PyList
deriving DecidableEq

/-- A Python dict with string keys, in insertion order (Python 3.7+ dicts
preserve insertion order, and `json.dumps` emits keys in that order). -/
inductive PyDict where
  | nil : PyDict
  | cons (key : String) (val : PyValue) (tail : PyDict) : PyDict
deriving DecidableEq
end

/-- Concatenation of a list of strings, in order. -/
def concatAll : List String → String
  | [] => ""
  | s :: rest => s ++ concatAll rest

/-- ASCII decimal digit character for `n < 10`. -/
def digitChar (n : Nat) : Char := Char.ofNat (48 + n)

/-- Decimal digits of `n`, most significant first; `fuel` bounds the number
of digits (any `fuel > log10 n` gives the exact digits). -/
def natDecimalAux : Nat → Nat → List Char
  | 0, _ => []
  | fuel + 1, n =>
    if n < 10 then [digitChar n]
    else natDecimalAux fuel (n / 10) ++ [digitChar (n % 10)]

/-- Decimal representation of a natural number. -/
def natDecimal (n : Nat) : List Char := natDecimalAux (n + 1) n

/-- Decimal representation of an integer, as Python's `repr` (and hence
`json.dumps`) renders an `int`. -/
def intDecimal : Int → String
  | .ofNat m => String.mk (natDecimal m)
  | .negSucc m => "-" ++ String.mk (natDecimal (m + 1))

/-- The pairs of a `PyDict`, in order. -/
def PyDict.toList : PyDict → List (String × PyValue)
  | .nil => []
  | .cons k v t => (k, v) :: t.toList

/-- Lower-case hexadecimal digit, as used by `json.dumps` `\uXXXX` escapes. -/
def hexDigit (n : Nat) : Char :=
  if n < 10 then Char.ofNat (48 + n) else Char.ofNat (87 + n)

/-- A `\uXXXX` escape for code unit `n` (assumed < 0x10000). -/
def uEscape (n : Nat) : String :=
  "\\u" ++ String.mk [hexDigit (n / 4096 % 16), hexDigit (n / 256 % 16),
    hexDigit (n / 16 % 16), hexDigit (n % 16)]

/-- How `json.dumps` (default settings, `ensure_ascii=True`) renders one
character of a string: the two-character named escapes for `"`­, `\`, and the
common control characters, `\uXXXX` for other control and all non-ASCII
characters (astral code points become a surrogate pair), and the character
itself otherwise. -/
def escapeChar (c : Char) : String :=
  if c = '"' then "\\\""
  else if c = '\\' then "\\\\"
  else if c = '\n' then "\\n"
  else if c = '\t' then "\\t"
  else if c = '\r' then "\\r"
  else if c = Char.ofNat 8 then "\\b"
  else if c = Char.ofNat 12 then "\\f"
  else if c.toNat < 32 || c.toNat > 126 then
    if c.toNat ≥ 65536 then
      uEscape (55296 + (c.toNat - 65536) / 1024) ++
        uEscape (56320 + (c.toNat - 65536) % 1024)
    else uEscape c.toNat
  else String.mk [c]

/-- `json.dumps` of a Python string: quoted, each character escaped as
`escapeChar` prescribes. -/
def encodeString (s : String) : String :=
  "\"" ++ concatAll (s.data.map escapeChar) ++ "\""

mutual
/-- `json.dumps(v)` with its default settings: `none` models the `TypeError`
raised on an unserializable value.  Default separators are `", "` between
items and `": "` between a key and its value. -/
def dumpsValue : PyValue → Option String
  | .null => some "null"
  | .bool true => some "true"
  | .bool false => some "false"
  | .int n => some (intDecimal n)
  | .str s => some (encodeString s)
  | .list items =>
    match dumpsListItems items with
    | some ss => some ("[" ++ joinSep ", " ss ++ "]")
    | none => none
  | .dict items =>
    match dumpsDictItems items with
    | some ss => some ("\x7b" ++ joinSep ", " ss ++ "\x7d")
    | none => none
  | .obj => none

/-- The serialized elements of a Python list, in order (`none` if any
element is unserializable). -/
def dumpsListItems : PyList → Option (List String)
  | .nil => some []
  | .cons v t =>
    match dumpsValue v, dumpsListItems t with
    | some s, some ss => some (s :: ss)
    | _, _ => none

/-- The serialized `"key": value` members of a Python dict, in order
(`none` if any value is unserializable). -/
def dumpsDictItems : PyDict → Option (List String)
  | .nil => some []
  | .cons k v t =>
    match dumpsValue v, dumpsDictItems t with
    | some s, some ss => some ((encodeString k ++ ": " ++ s) :: ss)
    | _, _ => none
end

/-- `json.dumps` of a dict: its members joined by `", "` inside braces. -/
def dumpsDict (d : PyDict) : Option String :=
  match dumpsDictItems d with
  | some ss => some ("\x7b" ++ joinSep ", " ss ++ "\x7d")
  | none => none

/-- A build-option record, as the exporter sees it: its `__dict__`, i.e. its
named fields in definition order.  Python `==` on two occurrences of the same
record object (and on dataclass-style records with equal fields) is modelled
by decidable equality of the field dicts. -/
structure BuildOption where
  fields : PyDict
deriving DecidableEq

/-- `json.dumps(option.__dict__)` — serialization of one record, `none` when
it raises. -/
def serializeOption (o : BuildOption) : Option String :=
  dumpsDict o.fields

/-- The serialization of a record, defaulting to `""` (used only under a
hypothesis that serialization succeeds). -/
def serializedOf (o : BuildOption) : String :=
  (serializeOption o).getD ""

/-- The serialization of a field value, defaulting to `""`. -/
def dumpsValueD (v : PyValue) : String :=
  (dumpsValue v).getD ""

/-- Outcome of the `for option in module.BUILD_OPTIONS` loop: either the text
it printed, or the text printed so far when `json.dumps` raised. -/
inductive EmitResult where
  | ok (out : String) : EmitResult
  | raised (soFar : String) : EmitResult
deriving DecidableEq

/-- The loop body of the script, for the remaining records: each record is
serialized and printed, with `end=""` when the record compares equal (Python
`==`) to `BUILD_OPTIONS[-1]` and `end=",\n"` otherwise.  stdout is written
left to right, so the total text is the concatenation of the per-iteration
pieces; a `json.dumps` failure aborts the loop with the text printed so far. -/
def emitLoop (last : BuildOption) : List BuildOption → EmitResult
  | [] => .ok ""
  | o :: rest =>
    match serializeOption o with
    | none => .raised ""
    | some s =>
      let piece := if o = last then s else s ++ ",\n"
      match emitLoop last rest with
      | .ok out => .ok (piece ++ out)
      | .raised out => .raised (piece ++ out)

/-- Result of one process invocation: `success` (exit code 0) with the full
stdout text, `usageError` (the explicit `sys.exit(1)`), or `uncaughtError`
(an exception propagated to the interpreter, which exits with code 1) with
the stdout text written before the exception. -/
inductive RunResult where
  | success (stdout : String) : RunResult
  | usageError : RunResult
  | uncaughtError (stdoutSoFar : String) : RunResult
deriving DecidableEq

/-- Everything written to standard output during the run. -/
def RunResult.stdout : RunResult → String
  | .success s => s
  | .usageError => ""
  | .uncaughtError s => s

/-- The process exit code: 0 on success, 1 from `sys.exit(1)`, and 1 for an
uncaught exception (CPython's exit code for an unhandled exception). -/
def RunResult.exitCode : RunResult → Nat
  | .success _ => 0
  | .usageError => 1
  | .uncaughtError _ => 1

/-- What dynamically loading the configuration script produced.  Loading
happens before anything is printed; `failure` models a path that does not
load or a script that raises while executing, `loaded none` a script with no
module-level `BUILD_OPTIONS`, and `loaded (some opts)` a script whose
`BUILD_OPTIONS` is the list `opts`. -/
inductive ModuleLoad where
  | failure : ModuleLoad
  | loaded (buildOptions : Option (List BuildOption)) : ModuleLoad

/-- The part of the script after a successful load: print `[` (no newline),
run the loop over `BUILD_OPTIONS` (the `BUILD_OPTIONS[-1]` comparison value
is the list's last element; with an empty list the loop body never runs), and
print `]` with `print`'s trailing newline. -/
def runLoaded (opts : List BuildOption) : RunResult :=
  match opts.getLast? with
  | none => .success "[]\n"
  | some last =>
    match emitLoop last opts with
    | .ok out => .success ("[" ++ out ++ "]\n")
    | .raised out => .uncaughtError ("[" ++ out)

/-- The `__main__` block of `featureLoader.py`.  `argv` is the full
`sys.argv` (program name first): if its length is not 2 the process exits
with code 1 before printing anything or loading the script; otherwise the
script is loaded (outcome `m`) and, on a successful load, `[` is printed
before `module.BUILD_OPTIONS` is ever accessed. -/
def featureLoader (argv : List String) (m : ModuleLoad) : RunResult :=
  if argv.length ≠ 2 then .usageError
  else
    match m with
    | .failure => .uncaughtError ""
    | .loaded none => .uncaughtError "["
    | .loaded (some opts) => runLoaded opts

/-- The last element of `BUILD_OPTIONS` compares equal (Python `==`) to no
earlier element — the condition under which the `option ==
BUILD_OPTIONS[-1]` test coincides with "this is the last iteration". -/
def lastUniqueB (opts : List BuildOption) : Bool :=
  match opts.getLast? with
  | none => true
  | some last => opts.dropLast.all (fun o => o ≠ last)

/-- Every record of the list serializes without raising. -/
def allSerializableB (opts : List BuildOption) : Bool :=
  opts.all (fun o => (serializeOption o).isSome)

/-!
A JSON syntax checker (json.org grammar), used to state that certain output
texts are, or are not, syntactically valid JSON.  Each `parse*` function
consumes one construct from a list of characters and returns the remaining
input, or `none` on a syntax error.
-/

/-- JSON insignificant whitespace. -/
def isWsChar (c : Char) : Bool :=
  c = ' ' || c = '\n' || c = '\r' || c = '\t'

/-- Drop leading JSON whitespace. -/
def skipWs : List Char → List Char
  | [] => []
  | c :: rest => if isWsChar c then skipWs rest else c :: rest

/-- Consume the given expected characters from the front of the input. -/
def dropExpected : List Char → List Char → Option (List Char)
  | [], cs => some cs
  | _ :: _, [] => none
  | p :: ps, c :: cs => if c = p then dropExpected ps cs else none

/-- ASCII decimal digit. -/
def isDigitChar (c : Char) : Bool :=
  '0' ≤ c && c ≤ '9'

/-- ASCII hexadecimal digit. -/
def isHexDigitChar (c : Char) : Bool :=
  isDigitChar c || ('a' ≤ c && c ≤ 'f') || ('A' ≤ c && c ≤ 'F')

/-- Consume the integer part of a JSON number: `0`, or a nonzero digit
followed by any digits. -/
def parseIntPart : List Char → Option (List Char)
  | [] => none
  | c :: rest =>
    if c = '0' then some rest
    else if isDigitChar c then some (rest.dropWhile isDigitChar)
    else none

/-- Consume an optional JSON fraction part: `.` followed by one or more
digits. -/
def parseFracPart : List Char → Option (List Char)
  | [] => some []
  | c :: rest =>
    if c = '.' then
      match rest with
      | d :: ds => if isDigitChar d then some (ds.dropWhile isDigitChar) else none
      | [] => none
    else some (c :: rest)

/-- Consume an optional JSON exponent part: `e`/`E`, optional sign, one or
more digits. -/
def parseExpPart : List Char → Option (List Char)
  | [] => some []
  | c :: rest =>
    if c = 'e' || c = 'E' then
      let rest2 := match rest with
        | s :: ss => if s = '+' || s = '-' then ss else s :: ss
        | [] => []
      match rest2 with
      | d :: ds => if isDigitChar d then some (ds.dropWhile isDigitChar) else none
      | [] => none
    else some (c :: rest)

/-- Consume a JSON number. -/
def parseNumber (cs : List Char) : Option (List Char) :=
  let cs1 := match cs with
    | c :: rest => if c = '-' then rest else c :: rest
    | [] => []
  match parseIntPart cs1 with
  | none => none
  | some r1 =>
    match parseFracPart r1 with
    | none => none
    | some r2 => parseExpPart r2

/-- Consume the body of a JSON string, after the opening quote, up to and
including the closing quote. -/
def parseStringBody : List Char → Option (List Char)
  | [] => none
  | c :: rest =>
    if c = '"' then some rest
    else if c = '\\' then
      match rest with
      | [] => none
      | e :: rest2 =>
        if e = '"' || e = '\\' || e = '/' || e = 'b' || e = 'f' || e = 'n'
            || e = 'r' || e = 't' then parseStringBody rest2
        else if e = 'u' then
          match rest2 with
          | h1 :: h2 :: h3 :: h4 :: rest3 =>
            if isHexDigitChar h1 && isHexDigitChar h2 && isHexDigitChar h3
                && isHexDigitChar h4 then parseStringBody rest3
            else none
          | _ => none
        else none
    else if c.toNat < 32 then none
    else parseStringBody rest

mutual
/-- Consume one JSON value (leading whitespace allowed).  `fuel` bounds the
recursion depth; every recursive call decreases it. -/
def parseValue : Nat → List Char → Option (List Char)
  | 0, _ => none
  | fuel + 1, cs =>
    match skipWs cs with
    | [] => none
    | c :: rest =>
      if c = '"' then parseStringBody rest
      else if c = '[' then parseArrayRest fuel rest
      else if c = Char.ofNat 123 then parseObjectRest fuel rest
      else
        match dropExpected "true".data (c :: rest) with
        | some r => some r
        | none =>
          match dropExpected "false".data (c :: rest) with
          | some r => some r
          | none =>
            match dropExpected "null".data (c :: rest) with
            | some r => some r
            | none => parseNumber (c :: rest)

/-- Consume the rest of a JSON array, after the opening `[`. -/
def parseArrayRest : Nat → List Char → Option (List Char)
  | 0, _ => none
  | fuel + 1, cs =>
    match skipWs cs with
    | [] => none
    | c :: rest =>
      if c = ']' then some rest
      else parseArrayItems fuel (c :: rest)

/-- Consume one or more comma-separated JSON values followed by `]`. -/
def parseArrayItems : Nat → List Char → Option (List Char)
  | 0, _ => none
  | fuel + 1, cs =>
    match parseValue fuel cs with
    | none => none
    | some r1 =>
      match skipWs r1 with
      | [] => none
      | c :: rest =>
        if c = ',' then parseArrayItems fuel rest
        else if c = ']' then some rest
        else none

/-- Consume the rest of a JSON object, after the opening brace. -/
def parseObjectRest : Nat → List Char → Option (List Char)
  | 0, _ => none
  | fuel + 1, cs =>
    match skipWs cs with
    | [] => none
    | c :: rest =>
      if c = Char.ofNat 125 then some rest
      else parseObjectMembers fuel (c :: rest)

/-- Consume one or more comma-separated `"key": value` members followed by a
closing brace. -/
def parseObjectMembers : Nat → List Char → Option (List Char)
  | 0, _ => none
  | fuel + 1, cs =>
    match skipWs cs with
    | [] => none
    | c :: rest =>
      if c = '"' then
        match parseStringBody rest with
        | none => none
        | some r1 =>
          match skipWs r1 with
          | [] => none
          | c2 :: r2 =>
            if c2 = ':' then
              match parseValue fuel r2 with
              | none => none
              | some r3 =>
                match skipWs r3 with
                | [] => none
                | c3 :: r4 =>
                  if c3 = ',' then parseObjectMembers fuel r4
                  else if c3 = Char.ofNat 125 then some r4
                  else none
            else none
      else none
end

/-- A string is syntactically valid JSON: one value, possibly surrounded by
whitespace, covering the whole text. -/
def jsonValid (s : String) : Bool :=
  match parseValue (4 * s.length + 4) s.data with
  | some rest => (skipWs rest).isEmpty
  | none => false

/-- All contiguous substrings of a string. -/
def substringsOf (s : String) : List (List Char) :=
  s.data.tails.flatMap (fun t => t.inits)

/-- The text has some contiguous substring that is syntactically valid
JSON. -/
def containsJsonValue (s : String) : Bool :=
  (substringsOf s).any (fun cs => jsonValid (String.mk cs))

/-!
Core lemmas about the success path of the emit loop: when no record other
than the last compares equal to the last, the `option == BUILD_OPTIONS[-1]`
test fires exactly on the final iteration, so the loop prints the serialized
records joined by `,\n`.
-/

theorem emitLoop_cons (last o : BuildOption) (rest : List BuildOption) (s : String)
    (hs : serializeOption o = some s) :
    emitLoop last (o :: rest) =
      match emitLoop last rest with
      | .ok out => .ok ((if o = last then s else s ++ ",\n") ++ out)
      | .raised out => .raised ((if o = last then s else s ++ ",\n") ++ out) := by
  simp [emitLoop, hs]

theorem emitLoop_joinSep (last : BuildOption) (l : List BuildOption)
    (hser : ∀ o ∈ l, (serializeOption o).isSome = true)
    (hne : ∀ o ∈ l.dropLast, o ≠ last)
    (hlast : ∀ h : l ≠ [], l.getLast h = last) :
    emitLoop last l = .ok (joinSep ",\n" (l.map serializedOf)) := by
  induction l with
  | nil => rfl
  | cons o l ih =>
    obtain ⟨s, hs⟩ := Option.isSome_iff_exists.mp (hser o (List.mem_cons_self o l))
    cases l with
    | nil =>
      have holast : o = last := by simpa using hlast (by simp)
      subst holast
      rw [emitLoop_cons o o [] s hs]
      simp [emitLoop, joinSep, serializedOf, hs, String.append_empty]
    | cons o2 l2 =>
      have hone : o ≠ last := hne o (by simp)
      have ih' := ih (fun x hx => hser x (List.mem_cons_of_mem o hx))
        (fun x hx => hne x (by
          rw [List.dropLast_cons₂]
          exact List.mem_cons_of_mem o hx))
        (fun h => by
          have h0 := hlast (by simp)
          rwa [List.getLast_cons h] at h0)
      rw [emitLoop_cons last o (o2 :: l2) s hs, ih']
      simp [hone, joinSep, serializedOf, hs]

theorem runLoaded_success (opts : List BuildOption)
    (hser : allSerializableB opts = true) (huniq : lastUniqueB opts = true) :
    runLoaded opts = .success ("[" ++ joinSep ",\n" (opts.map serializedOf) ++ "]\n") := by
  have hser' : ∀ o ∈ opts, (serializeOption o).isSome = true := by
    simpa [allSerializableB, List.all_eq_true] using hser
  cases hL : opts.getLast? with
  | none =>
    have h0 : opts = [] := by simpa using hL
    subst h0
    simp [runLoaded, joinSep]
  | some last =>
    have hlast : ∀ h : opts ≠ [], opts.getLast h = last := by
      intro h
      have h1 := List.getLast?_eq_getLast opts h
      rw [h1] at hL
      exact Option.some.inj hL
    have hne : ∀ o ∈ opts.dropLast, o ≠ last := by
      simp only [lastUniqueB, hL, List.all_eq_true, decide_eq_true_eq] at huniq
      exact huniq
    have hE := emitLoop_joinSep last opts hser' hne hlast
    unfold runLoaded
    rw [hL]
    simp [hE]

theorem featureLoader_eq_runLoaded (argv : List String) (opts : List BuildOption)
    (h2 : argv.length = 2) :
    featureLoader argv (.loaded (some opts)) = runLoaded opts := by
  simp [featureLoader, h2]

/-- Unfolding equation of `joinSep` on a list with at least two elements. -/
theorem joinSep_cons₂ (sep s s2 : String) (rest : List String) :
    joinSep sep (s :: s2 :: rest) = s ++ sep ++ joinSep sep (s2 :: rest) := rfl

/-!
Field fidelity of `json.dumps` on a record's `__dict__`: the serialized
members are exactly the record's fields, in order, each rendered as its
quoted key, `": "`, and the serialization of its value.
-/

theorem dumpsDictItems_eq :
    ∀ (d : PyDict) (ss : List String), dumpsDictItems d = some ss →
      ss = d.toList.map (fun kv => encodeString kv.1 ++ ": " ++ dumpsValueD kv.2)
  | .nil, ss, h => by
    injection h with h
    subst h
    simp [PyDict.toList]
  | .cons k v t, ss, h => by
    cases hv : dumpsValue v with
    | none => simp [dumpsDictItems, hv] at h
    | some s =>
      cases ht : dumpsDictItems t with
      | none => simp [dumpsDictItems, hv, ht] at h
      | some ss2 =>
        have ih : ss2 = List.map
            (fun kv => encodeString kv.1 ++ ": " ++ (dumpsValue kv.2).getD "") t.toList := by
          simpa [dumpsValueD] using dumpsDictItems_eq t ss2 ht
        simp only [dumpsDictItems, hv, ht, Option.some.injEq] at h
        subst h
        simp [PyDict.toList, dumpsValueD, hv, ← ih]

/-!
No serialized record contains a raw newline: `json.dumps` escapes all
control characters, so the only newlines on stdout are the `,\n` separators
the script prints and the newline after `]`.
-/

theorem noNl_append {a b : String} (ha : '\n' ∉ a.data) (hb : '\n' ∉ b.data) :
    '\n' ∉ (a ++ b).data := by
  simp [String.data_append, List.mem_append, ha, hb]

theorem hexDigit_ne_nl (n : Nat) (h : n < 16) : hexDigit n ≠ '\n' := by
  interval_cases n <;> decide

theorem uEscape_noNl (n : Nat) : '\n' ∉ (uEscape n).data := by
  have h1 := hexDigit_ne_nl (n / 4096 % 16) (Nat.mod_lt _ (by norm_num))
  have h2 := hexDigit_ne_nl (n / 256 % 16) (Nat.mod_lt _ (by norm_num))
  have h3 := hexDigit_ne_nl (n / 16 % 16) (Nat.mod_lt _ (by norm_num))
  have h4 := hexDigit_ne_nl (n % 16) (Nat.mod_lt _ (by norm_num))
  intro hmem
  simp only [uEscape, String.data_append, List.mem_append, List.mem_cons,
    List.not_mem_nil, or_false] at hmem
  rcases hmem with hmem | hmem
  · exact absurd hmem (by decide)
  · rcases hmem with h | h | h | h
    · exact h1 h.symm
    · exact h2 h.symm
    · exact h3 h.symm
    · exact h4 h.symm

theorem escapeChar_noNl (c : Char) : '\n' ∉ (escapeChar c).data := by
  unfold escapeChar
  split_ifs with h1 h2 h3 h4 h5 h6 h7 h8 h9
  · decide
  · decide
  · decide
  · decide
  · decide
  · decide
  · decide
  · exact noNl_append (uEscape_noNl _) (uEscape_noNl _)
  · exact uEscape_noNl _
  · intro hmem
    simp only [String.data, List.mem_singleton] at hmem
    exact h3 hmem.symm

theorem concatAll_noNl : ∀ (ss : List String), (∀ s ∈ ss, '\n' ∉ s.data) →
    '\n' ∉ (concatAll ss).data
  | [], _ => by simp [concatAll]
  | s :: rest, h =>
    noNl_append (h s (by simp))
      (concatAll_noNl rest (fun x hx => h x (List.mem_cons_of_mem s hx)))

theorem encodeString_noNl (s : String) : '\n' ∉ (encodeString s).data := by
  unfold encodeString
  refine noNl_append (noNl_append (by decide) (concatAll_noNl _ ?_)) (by decide)
  intro x hx
  simp only [List.mem_map] at hx
  obtain ⟨c, _, rfl⟩ := hx
  exact escapeChar_noNl c

theorem digitChar_ne_nl (n : Nat) (h : n < 10) : '\n' ≠ digitChar n := by
  interval_cases n <;> decide

theorem natDecimalAux_noNl : ∀ (fuel n : Nat), '\n' ∉ natDecimalAux fuel n
  | 0, _ => by simp [natDecimalAux]
  | fuel + 1, n => by
    unfold natDecimalAux
    split_ifs with h
    · simpa using fun hc => digitChar_ne_nl n h hc
    · intro hmem
      rcases List.mem_append.mp hmem with hm | hm
      · exact natDecimalAux_noNl fuel (n / 10) hm
      · have hd := digitChar_ne_nl (n % 10) (Nat.mod_lt _ (by norm_num))
        simp only [List.mem_singleton] at hm
        exact hd hm

theorem intDecimal_noNl (n : Int) : '\n' ∉ (intDecimal n).data := by
  cases n with
  | ofNat m => simpa [intDecimal, natDecimal] using natDecimalAux_noNl (m + 1) m
  | negSucc m =>
    refine noNl_append (by decide) ?_
    simpa [natDecimal] using natDecimalAux_noNl (m + 2) (m + 1)

theorem joinSep_noNl : ∀ (sep : String) (ss : List String), '\n' ∉ sep.data →
    (∀ s ∈ ss, '\n' ∉ s.data) → '\n' ∉ (joinSep sep ss).data
  | _, [], _, _ => by simp [joinSep]
  | _, [s], _, h => by simpa [joinSep] using h s (by simp)
  | sep, s :: s2 :: rest, hsep, h => by
    rw [joinSep_cons₂]
    refine noNl_append (noNl_append (h s (by simp)) hsep) ?_
    exact joinSep_noNl sep (s2 :: rest) hsep (fun x hx => h x (List.mem_cons_of_mem s hx))

mutual
/-- A successfully serialized value contains no raw newline character. -/
theorem dumpsValue_noNl : ∀ (v : PyValue) (s : String), dumpsValue v = some s → '\n' ∉ s.data
  | .null, _, h => by
    injection h with h
    subst h
    decide
  | .bool b, _, h => by
    cases b <;> injection h with h <;> subst h <;> decide
  | .int n, _, h => by
    injection h with h
    subst h
    exact intDecimal_noNl n
  | .str t, _, h => by
    injection h with h
    subst h
    exact encodeString_noNl t
  | .list items, s, h => by
    cases hl : dumpsListItems items with
    | none => simp [dumpsValue, hl] at h
    | some ss =>
      simp only [dumpsValue, hl, Option.some.injEq] at h
      subst h
      refine noNl_append (noNl_append (by decide) ?_) (by decide)
      exact joinSep_noNl ", " ss (by decide) (dumpsListItems_noNl items ss hl)
  | .dict items, s, h => by
    cases hd : dumpsDictItems items with
    | none => simp [dumpsValue, hd] at h
    | some ss =>
      simp only [dumpsValue, hd, Option.some.injEq] at h
      subst h
      refine noNl_append (noNl_append (by decide) ?_) (by decide)
      exact joinSep_noNl ", " ss (by decide) (dumpsDictItems_noNl items ss hd)
  | .obj, _, h => by simp [dumpsValue] at h

/-- Successfully serialized list elements contain no raw newline. -/
theorem dumpsListItems_noNl : ∀ (l : PyList) (ss : List String),
    dumpsListItems l = some ss → ∀ s ∈ ss, '\n' ∉ s.data
  | .nil, _, h => by
    injection h with h
    subst h
    simp
  | .cons v t, ss, h => by
    cases hv : dumpsValue v with
    | none => simp [dumpsListItems, hv] at h
    | some s1 =>
      cases ht : dumpsListItems t with
      | none => simp [dumpsListItems, hv, ht] at h
      | some ss2 =>
        simp only [dumpsListItems, hv, ht, Option.some.injEq] at h
        subst h
        intro s hs
        rcases List.mem_cons.mp hs with rfl | hs2
        · exact dumpsValue_noNl v s hv
        · exact dumpsListItems_noNl t ss2 ht s hs2

/-- Successfully serialized dict members contain no raw newline. -/
theorem dumpsDictItems_noNl : ∀ (d : PyDict) (ss : List String),
    dumpsDictItems d = some ss → ∀ s ∈ ss, '\n' ∉ s.data
  | .nil, _, h => by
    injection h with h
    subst h
    simp
  | .cons k v t, ss, h => by
    cases hv : dumpsValue v with
    | none => simp [dumpsDictItems, hv] at h
    | some s1 =>
      cases ht : dumpsDictItems t with
      | none => simp [dumpsDictItems, hv, ht] at h
      | some ss2 =>
        simp only [dumpsDictItems, hv, ht, Option.some.injEq] at h
        subst h
        intro s hs
        rcases List.mem_cons.mp hs with rfl | hs2
        · exact noNl_append (noNl_append (encodeString_noNl k) (by decide))
            (dumpsValue_noNl v s1 hv)
        · exact dumpsDictItems_noNl t ss2 ht s hs2
end

/-- A successfully serialized record contains no raw newline. -/
theorem serializedOf_noNl (o : BuildOption) (h : (serializeOption o).isSome = true) :
    '\n' ∉ (serializedOf o).data := by
  obtain ⟨s, hs⟩ := Option.isSome_iff_exists.mp h
  cases hd : dumpsDictItems o.fields with
  | none => simp [serializeOption, dumpsDict, hd] at hs
  | some ss =>
    have h1 : serializedOf o = "\x7b" ++ joinSep ", " ss ++ "\x7d" := by
      simp [serializedOf, serializeOption, dumpsDict, hd]
    rw [h1]
    refine noNl_append (noNl_append (by decide) ?_) (by decide)
    exact joinSep_noNl ", " ss (by decide) (dumpsDictItems_noNl o.fields ss hd)

/-!
Newline counting: the number of `'\n'` characters on stdout determines the
number of lines the output spans.
-/

theorem count_nl_append (a b : String) :
    (a ++ b).data.count '\n' = a.data.count '\n' + b.data.count '\n' := by
  simp [String.data_append, List.count_append]

theorem joinSep_nl_count : ∀ ss : List String, (∀ s ∈ ss, '\n' ∉ s.data) →
    (joinSep ",\n" ss).data.count '\n' = ss.length - 1
  | [], _ => by simp [joinSep]
  | [s], h => by
    simpa [joinSep] using List.count_eq_zero.mpr (h s (by simp))
  | s :: s2 :: rest, h => by
    have hrec := joinSep_nl_count (s2 :: rest)
      (fun x hx => h x (List.mem_cons_of_mem s hx))
    rw [joinSep_cons₂, count_nl_append, count_nl_append, hrec,
      List.count_eq_zero.mpr (h s (by simp))]
    simp
    omega

/-- Does `pat` occur at the start of the second list? -/
def startsWithSeq : List Char → List Char → Bool
  | [], _ => true
  | _ :: _, [] => false
  | p :: ps, c :: cs => p = c && startsWithSeq ps cs

/-- Does `pat` occur contiguously anywhere in the list? -/
def hasSeq (pat : List Char) : List Char → Bool
  | [] => startsWithSeq pat []
  | c :: cs => startsWithSeq pat (c :: cs) || hasSeq pat cs

/-- Does the string `pat` occur contiguously in `s`? -/
def containsSeq (s pat : String) : Bool :=
  hasSeq pat.data s.data

/-- The text consists of a single line: it has no newline character except
possibly a final, terminating one. -/
def oneLineB (s : String) : Bool :=
  s.data.dropLast.count '\n' == 0

/-- Sample record, `__dict__` = `{"a": None}`. -/
def optA : BuildOption := ⟨.cons "a" .null .nil⟩

/-- Sample record, `__dict__` = `{"b": None}`. -/
def optB : BuildOption := ⟨.cons "b" .null .nil⟩

/-- Sample record, `__dict__` = `{"name": "ENABLE_X", "default": True}`. -/
def optX : BuildOption :=
  ⟨.cons "name" (.str "ENABLE_X") (.cons "default" (.bool true) .nil)⟩

/-- Sample record, `__dict__` = `{"name": "ENABLE_Y", "default": False}`. -/
def optY : BuildOption :=
  ⟨.cons "name" (.str "ENABLE_Y") (.cons "default" (.bool false) .nil)⟩

/-- Sample record whose single field holds a value `json.dumps` rejects. -/
def optBad : BuildOption := ⟨.cons "x" .obj .nil⟩

/-- C4: for every invocation whose argument count is not exactly one (i.e.
`len(sys.argv) != 2`), whatever the configuration script would have loaded
to, the process takes the `sys.exit(1)` branch: exit code 1 and nothing at
all written to standard output. -/
theorem c4_usage_error (argv : List String) (m : ModuleLoad) (h : argv.length ≠ 2) :
    featureLoader argv m = .usageError ∧
    (featureLoader argv m).stdout = "" ∧
    (featureLoader argv m).exitCode = 1 := by
  have h1 : featureLoader argv m = .usageError := by simp [featureLoader, h]
  exact ⟨h1, by rw [h1]; rfl, by rw [h1]; rfl⟩

/-- Witness for C4 at a concrete invocation with zero arguments. -/
theorem c4_usage_error_witness :
    featureLoader ["featureLoader.py"] .failure = .usageError ∧
    (featureLoader ["featureLoader.py"] .failure).stdout = "" ∧
    (featureLoader ["featureLoader.py"] .failure).exitCode = 1 :=
  c4_usage_error ["featureLoader.py"] .failure (by decide)

/-- C7: with a correct argument count and a script that loads successfully
but defines no `BUILD_OPTIONS`, the attribute access raises, the process
terminates through the uncaught-exception path (non-zero exit code), and the
only text on standard output is the already-printed `[`, no substring of
which is a syntactically valid JSON value. -/
theorem c7_missing_symbol (argv : List String) (h2 : argv.length = 2) :
    featureLoader argv (.loaded none) = .uncaughtError "[" ∧
    (featureLoader argv (.loaded none)).exitCode ≠ 0 ∧
    (featureLoader argv (.loaded none)).stdout = "[" ∧
    containsJsonValue (featureLoader argv (.loaded none)).stdout = false := by
  have h1 : featureLoader argv (.loaded none) = .uncaughtError "[" := by
    simp [featureLoader, h2]
  refine ⟨h1, by rw [h1]; decide, by rw [h1]; rfl, by rw [h1]; decide⟩

/-- Witness for C7 at a concrete invocation. -/
theorem c7_missing_symbol_witness :
    featureLoader ["featureLoader.py", "build_options.py"] (.loaded none) =
      .uncaughtError "[" ∧
    (featureLoader ["featureLoader.py", "build_options.py"] (.loaded none)).exitCode ≠ 0 ∧
    (featureLoader ["featureLoader.py", "build_options.py"] (.loaded none)).stdout = "[" ∧
    containsJsonValue
      (featureLoader ["featureLoader.py", "build_options.py"] (.loaded none)).stdout = false :=
  c7_missing_symbol ["featureLoader.py", "build_options.py"] (by decide)

/-- C10: the export is deterministic — the text written to standard output
is a function of the loaded `BUILD_OPTIONS` value alone; two invocations
with (possibly different) well-formed command lines and the same
`BUILD_OPTIONS` produce byte-for-byte identical output. -/
theorem c10_deterministic (argv1 argv2 : List String) (opts : List BuildOption)
    (h1 : argv1.length = 2) (h2 : argv2.length = 2) :
    (featureLoader argv1 (.loaded (some opts))).stdout =
      (featureLoader argv2 (.loaded (some opts))).stdout := by
  rw [featureLoader_eq_runLoaded argv1 opts h1, featureLoader_eq_runLoaded argv2 opts h2]

/-- Witness for C10 at two concrete command lines sharing `BUILD_OPTIONS`. -/
theorem c10_deterministic_witness :
    (featureLoader ["featureLoader.py", "a.py"] (.loaded (some [optA]))).stdout =
      (featureLoader ["python3", "b.py"] (.loaded (some [optA]))).stdout :=
  c10_deterministic ["featureLoader.py", "a.py"] ["python3", "b.py"] [optA] rfl rfl

/-- C1 counterexample: the claim quantifies over every serializable
`BUILD_OPTIONS`, but for `[optA, optA]` (the same record listed twice — in
Python, one object appearing twice, so `option == BUILD_OPTIONS[-1]` is true
already on the first iteration) the run succeeds with exit code 0 while
stdout is the two serialized records juxtaposed with no separator, which is
not a syntactically valid JSON value at all — so no JSON array with one
element per record is written. -/
theorem c1_counterexample :
    (featureLoader ["featureLoader.py", "build_options.py"]
      (.loaded (some [optA, optA]))).exitCode = 0 ∧
    (featureLoader ["featureLoader.py", "build_options.py"]
      (.loaded (some [optA, optA]))).stdout =
        "[\x7b\"a\": null\x7d\x7b\"a\": null\x7d]\n" ∧
    jsonValid (featureLoader ["featureLoader.py", "build_options.py"]
      (.loaded (some [optA, optA]))).stdout = false :=
  ⟨rfl, by decide, by decide⟩

/-- C1 (amended): provided no record before the last compares equal
(Python `==`) to the last one, the emitted text is the serialized records
joined by `,\n` inside `[` `]`, and the sequence of emitted elements is
exactly the element-wise serialization of `BUILD_OPTIONS`: same length, and
the element at every index `i` is the serialization of the record at `i`
(no reordering, dropping, or duplication). -/
theorem c1_order_preservation (argv : List String) (opts : List BuildOption) (i : Nat)
    (h2 : argv.length = 2) (hser : allSerializableB opts = true)
    (huniq : lastUniqueB opts = true) :
    (featureLoader argv (.loaded (some opts))).stdout =
      "[" ++ joinSep ",\n" (opts.map serializedOf) ++ "]\n" ∧
    (opts.map serializedOf).length = opts.length ∧
    (opts.map serializedOf)[i]? = opts[i]?.map serializedOf := by
  refine ⟨?_, by simp, by simp⟩
  rw [featureLoader_eq_runLoaded argv opts h2, runLoaded_success opts hser huniq]
  rfl

/-- Witness for C1 (amended) at two distinct records, index 0. -/
theorem c1_order_preservation_witness :
    (featureLoader ["featureLoader.py", "build_options.py"]
      (.loaded (some [optX, optY]))).stdout =
      "[" ++ joinSep ",\n" ([optX, optY].map serializedOf) ++ "]\n" ∧
    ([optX, optY].map serializedOf).length = ([optX, optY] : List BuildOption).length ∧
    ([optX, optY].map serializedOf)[0]? =
      (([optX, optY] : List BuildOption)[0]?).map serializedOf :=
  c1_order_preservation ["featureLoader.py", "build_options.py"] [optX, optY] 0
    rfl (by decide) (by decide)

/-- C2: field fidelity of the per-record output object.  The serialization
of a record's `__dict__` is exactly its members joined by `", "` inside
braces, and those members are exactly the record's field name/value pairs in
order — each key rendered as a JSON string followed by `": "` and the JSON
encoding of its value, with no key added or omitted. -/
theorem c2_field_fidelity (o : BuildOption) (ss : List String)
    (h : dumpsDictItems o.fields = some ss) :
    serializeOption o = some ("\x7b" ++ joinSep ", " ss ++ "\x7d") ∧
    ss = o.fields.toList.map (fun kv => encodeString kv.1 ++ ": " ++ dumpsValueD kv.2) :=
  ⟨by simp [serializeOption, dumpsDict, h], dumpsDictItems_eq o.fields ss h⟩

/-- Witness for C2 at a concrete two-field record. -/
theorem c2_field_fidelity_witness :
    serializeOption optX =
      some ("\x7b" ++ joinSep ", " ["\"name\": \"ENABLE_X\"", "\"default\": true"] ++ "\x7d") ∧
    ["\"name\": \"ENABLE_X\"", "\"default\": true"] =
      optX.fields.toList.map (fun kv => encodeString kv.1 ++ ": " ++ dumpsValueD kv.2) :=
  c2_field_fidelity optX ["\"name\": \"ENABLE_X\"", "\"default\": true"] (by decide)

/-- C3 counterexample: for `[optB, optB]` (same record twice, length 2) the
emitted text contains no `,\n` at all — the record that is not last is not
followed by the separator, because it compares equal to
`BUILD_OPTIONS[-1]`. -/
theorem c3_counterexample :
    (featureLoader ["featureLoader.py", "build_options.py"]
      (.loaded (some [optB, optB]))).stdout =
        "[\x7b\"b\": null\x7d\x7b\"b\": null\x7d]\n" ∧
    containsSeq (featureLoader ["featureLoader.py", "build_options.py"]
      (.loaded (some [optB, optB]))).stdout ",\n" = false :=
  ⟨by decide, by decide⟩

/-- C3 (amended): for a `BUILD_OPTIONS` of length ≥ 2 in which no record
before the last compares equal to the last, the emitted text is exactly the
serialized records joined by the two-character separator `,\n` — every
record except the last is followed by `,\n` and no separator follows the
last record (the closing `]` and final newline do). -/
theorem c3_separator_exactness (argv : List String) (opts : List BuildOption)
    (h2 : argv.length = 2) (_hlen : 2 ≤ opts.length)
    (hser : allSerializableB opts = true) (huniq : lastUniqueB opts = true) :
    (featureLoader argv (.loaded (some opts))).stdout =
      "[" ++ joinSep ",\n" (opts.map serializedOf) ++ "]\n" := by
  rw [featureLoader_eq_runLoaded argv opts h2, runLoaded_success opts hser huniq]
  rfl

/-- Witness for C3 (amended) at two distinct records. -/
theorem c3_separator_exactness_witness :
    (featureLoader ["featureLoader.py", "build_options.py"]
      (.loaded (some [optX, optY]))).stdout =
      "[" ++ joinSep ",\n" ([optX, optY].map serializedOf) ++ "]\n" :=
  c3_separator_exactness ["featureLoader.py", "build_options.py"] [optX, optY]
    rfl (by decide) (by decide) (by decide)

/-- C5 counterexample: for `BUILD_OPTIONS = []` the bytes on standard output
are `[]` followed by the newline that `print("]")` appends — three
characters, not exactly the two characters `[]`. -/
theorem c5_counterexample :
    (featureLoader ["featureLoader.py", "build_options.py"]
      (.loaded (some []))).stdout = "[]\n" ∧
    (featureLoader ["featureLoader.py", "build_options.py"]
      (.loaded (some []))).stdout ≠ "[]" :=
  ⟨rfl, by decide⟩

/-- C5 (amended): for `BUILD_OPTIONS = []` standard output is exactly `[]`
followed by a single terminating newline, and the exit code is 0. -/
theorem c5_empty_sequence (argv : List String) (h2 : argv.length = 2) :
    (featureLoader argv (.loaded (some []))).stdout = "[]\n" ∧
    (featureLoader argv (.loaded (some []))).exitCode = 0 := by
  have h1 : featureLoader argv (.loaded (some [])) = .success "[]\n" := by
    rw [featureLoader_eq_runLoaded argv [] h2]
    rfl
  exact ⟨by rw [h1]; rfl, by rw [h1]; rfl⟩

/-- Witness for C5 (amended) at a concrete invocation. -/
theorem c5_empty_sequence_witness :
    (featureLoader ["featureLoader.py", "build_options.py"]
      (.loaded (some []))).stdout = "[]\n" ∧
    (featureLoader ["featureLoader.py", "build_options.py"]
      (.loaded (some []))).exitCode = 0 :=
  c5_empty_sequence ["featureLoader.py", "build_options.py"] (by decide)

/-- C8: the two-option scenario.  For `BUILD_OPTIONS` holding the records
`{name: "ENABLE_X", default: True}` and `{name: "ENABLE_Y", default: False}`
in that order, stdout is `[{"name": "ENABLE_X", "default": true},` newline
`{"name": "ENABLE_Y", "default": false}]` (with `json.dumps` default
spacing, plus the final newline `print("]")` appends), and the exit code
is 0. -/
theorem c8_two_options :
    (featureLoader ["featureLoader.py", "build_options.py"]
      (.loaded (some [optX, optY]))).stdout =
      "[\x7b\"name\": \"ENABLE_X\", \"default\": true\x7d,\n\x7b\"name\": \"ENABLE_Y\", \"default\": false\x7d]\n" ∧
    (featureLoader ["featureLoader.py", "build_options.py"]
      (.loaded (some [optX, optY]))).exitCode = 0 :=
  ⟨by decide, rfl⟩

/-- C9: the opening `[` is printed before `BUILD_OPTIONS` is accessed, so
both when the attribute access raises (`loaded none`) and when serializing
the very first record raises, the process dies through the
uncaught-exception path with exactly the single character `[` already on
standard output — the failure is not atomic with respect to output. -/
theorem c9_partial_write (argv : List String) (o : BuildOption) (rest : List BuildOption)
    (h2 : argv.length = 2) (hbad : serializeOption o = none) :
    (featureLoader argv (.loaded none)).stdout = "[" ∧
    (featureLoader argv (.loaded none)).exitCode ≠ 0 ∧
    (featureLoader argv (.loaded (some (o :: rest)))).stdout = "[" ∧
    (featureLoader argv (.loaded (some (o :: rest)))).exitCode ≠ 0 := by
  have hm : featureLoader argv (.loaded none) = .uncaughtError "[" := by
    simp [featureLoader, h2]
  have hrun : runLoaded (o :: rest) = .uncaughtError "[" := by
    unfold runLoaded
    rw [List.getLast?_eq_getLast (o :: rest) (by simp)]
    simp [emitLoop, hbad, String.append_empty]
  have hr : featureLoader argv (.loaded (some (o :: rest))) = .uncaughtError "[" := by
    rw [featureLoader_eq_runLoaded argv (o :: rest) h2, hrun]
  exact ⟨by rw [hm]; rfl, by rw [hm]; decide, by rw [hr]; rfl, by rw [hr]; decide⟩

/-- Witness for C9: a first record whose field value `json.dumps` rejects. -/
theorem c9_partial_write_witness :
    (featureLoader ["featureLoader.py", "build_options.py"] (.loaded none)).stdout = "[" ∧
    (featureLoader ["featureLoader.py", "build_options.py"] (.loaded none)).exitCode ≠ 0 ∧
    (featureLoader ["featureLoader.py", "build_options.py"]
      (.loaded (some (optBad :: [optA])))).stdout = "[" ∧
    (featureLoader ["featureLoader.py", "build_options.py"]
      (.loaded (some (optBad :: [optA])))).exitCode ≠ 0 :=
  c9_partial_write ["featureLoader.py", "build_options.py"] optBad [optA]
    (by decide) (by decide)

/-- C6 counterexample: with two (distinct) records the run succeeds, but the
`,\n` separator puts a newline in the middle of the output, so the text on
standard output is not a single line. -/
theorem c6_counterexample :
    (featureLoader ["featureLoader.py", "build_options.py"]
      (.loaded (some [optA, optB]))).stdout =
        "[\x7b\"a\": null\x7d,\n\x7b\"b\": null\x7d]\n" ∧
    oneLineB (featureLoader ["featureLoader.py", "build_options.py"]
      (.loaded (some [optA, optB]))).stdout = false :=
  ⟨by decide, by decide⟩

/-- C6 (amended): for every successful run in which all records serialize
and no record before the last compares equal (Python `==`) to the last one
(the same condition under which C1 and C3 hold; when it fails, separators —
and with them newlines — are dropped), the output carries exactly
`max 1 |BUILD_OPTIONS|` newline characters, the last character of the output
is a newline, and the output is a single line exactly when `BUILD_OPTIONS`
has at most one element — with two or more records the `,\n` separators make
it span `|BUILD_OPTIONS|` lines. -/
theorem c6_line_structure (argv : List String) (opts : List BuildOption)
    (h2 : argv.length = 2) (hser : allSerializableB opts = true)
    (huniq : lastUniqueB opts = true) :
    ((featureLoader argv (.loaded (some opts))).stdout).data.count '\n' =
      max 1 opts.length ∧
    ((featureLoader argv (.loaded (some opts))).stdout).data.getLast? = some '\n' ∧
    (oneLineB (featureLoader argv (.loaded (some opts))).stdout = true ↔
      opts.length ≤ 1) := by
  have hout : (featureLoader argv (.loaded (some opts))).stdout =
      "[" ++ joinSep ",\n" (opts.map serializedOf) ++ "]\n" := by
    rw [featureLoader_eq_runLoaded argv opts h2, runLoaded_success opts hser huniq]
    rfl
  have hser' : ∀ o ∈ opts, (serializeOption o).isSome = true := by
    simpa [allSerializableB, List.all_eq_true] using hser
  have hnoNl : ∀ s ∈ opts.map serializedOf, '\n' ∉ s.data := by
    intro s hs
    obtain ⟨o, ho, rfl⟩ := List.mem_map.mp hs
    exact serializedOf_noNl o (hser' o ho)
  have hJ : (joinSep ",\n" (opts.map serializedOf)).data.count '\n' =
      opts.length - 1 := by
    simpa using joinSep_nl_count (opts.map serializedOf) hnoNl
  have hdata : ((featureLoader argv (.loaded (some opts))).stdout).data =
      ('[' :: (joinSep ",\n" (opts.map serializedOf)).data ++ [']']) ++ ['\n'] := by
    rw [hout]
    simp [String.data_append]
  refine ⟨?_, ?_, ?_⟩
  · rw [hdata]
    simp [List.count_append, List.count_cons, hJ]
    omega
  · rw [hdata, List.getLast?_append_of_ne_nil _ (by simp)]
    rfl
  · rw [oneLineB, hdata, List.dropLast_concat]
    simp [List.count_append, List.count_cons, hJ]
    omega

/-- Witness for C6 (amended) at two distinct records. -/
theorem c6_line_structure_witness :
    ((featureLoader ["featureLoader.py", "build_options.py"]
      (.loaded (some [optX, optY]))).stdout).data.count '\n' =
      max 1 ([optX, optY] : List BuildOption).length ∧
    ((featureLoader ["featureLoader.py", "build_options.py"]
      (.loaded (some [optX, optY]))).stdout).data.getLast? = some '\n' ∧
    (oneLineB (featureLoader ["featureLoader.py", "build_options.py"]
      (.loaded (some [optX, optY]))).stdout = true ↔
      ([optX, optY] : List BuildOption).length ≤ 1) :=
  c6_line_structure ["featureLoader.py", "build_options.py"] [optX, optY]
    rfl (by decide) (by decide)
